import Mathlib

/-!
Verification of the AgentTalk channel-log engine (src/server.py).

The engine is embedded shallowly: Python dicts become association
lists, the Flask request handlers become pure functions from the
loaded snapshot plus the request fields to the persisted snapshot
plus the HTTP-level result, and `datetime.now().isoformat()` is an
explicit `now : String` input.
-/

/-- A single message record: `{"time": ..., "agent": ..., "text": ...}`
(src/server.py lines 78-82). -/
structure Message where
  time : String
  agent : String
  text : String
deriving DecidableEq

/-- One channel's data: `{"messages": [...], "last_read": {...}}`
(src/server.py line 61).  The `last_read` dict is modelled as an
association list from agent name to last-read index. -/
structure ChannelData where
  messages : List Message
  last_read : List (String × Int)
deriving DecidableEq

/-- The persisted snapshot: a dict from channel name to channel data. -/
abbrev Snapshot := List (String × ChannelData)

/-- Association-list lookup, modelling Python `d[k]` / `d.get(k)`. -/
def lookupKey {β : Type} : List (String × β) → String → Option β
  | [], _ => none
  | (k', v') :: rest, k => if k' = k then some v' else lookupKey rest k

/-- Association-list update, modelling Python `d[k] = v` (replaces the
binding if the key is present, otherwise appends it). -/
def setKey {β : Type} : List (String × β) → String → β → List (String × β)
  | [], k, v => [(k, v)]
  | (k', v') :: rest, k, v =>
    if k' = k then (k', v) :: rest else (k', v') :: setKey rest k v

/-- `channel_data.get("last_read", {}).get(agent, -1)` (src/server.py
lines 66, 150). -/
def getLastRead (lr : List (String × Int)) (agent : String) : Int :=
  (lookupKey lr agent).getD (-1)

/-- The read cursor of `agent` in channel `ch` as stored in snapshot `s`
(`-1` when the channel or the agent's entry is absent). -/
def cursorOf (s : Snapshot) (ch a : String) : Int :=
  match lookupKey s ch with
  | none => -1
  | some cd => getLastRead cd.last_read a

/-- Python list slicing `l[i:]` with an `Int` start index: a negative
start counts from the end and is clamped at 0; a start past the end
yields the empty list. -/
def pySliceFrom {α : Type} (l : List α) (i : Int) : List α :=
  if i < 0 then l.drop ((l.length : Int) + i).toNat else l.drop i.toNat

/-- Characters of the regex class `[a-z0-9_]` (src/server.py line 31). -/
def isNameChar (c : Char) : Bool :=
  ('a' ≤ c && c ≤ 'z') || ('0' ≤ c && c ≤ '9') || c == '_'

/-- Whether `[a-z0-9_]+` matches a whole character list. -/
def reMatchChars (cs : List Char) : Bool :=
  !cs.isEmpty && cs.all isNameChar

/-- `re.match(r'^[a-z0-9_]+$', name) is not None` (src/server.py line 31).
Python's `$` matches at the end of the string or just before a newline
that is the last character, so a single trailing `'\n'` after the
matched characters is also accepted. -/
def reMatchNameDollar (name : String) : Bool :=
  let cs := name.data
  reMatchChars cs || (cs.getLast? == some '\n' && reMatchChars cs.dropLast)

/-- Embedding of `validate_name` (src/server.py lines 28-33): returns
the success flag and the optional error string. -/
def validate_name (name name_type : String) : Bool × Option String :=
  if reMatchNameDollar name then (true, none)
  else
    (false,
      some ("Invalid " ++ name_type ++
        ": only lowercase letters, numbers, and underscores allowed"))

/-- The pure boolean name-validator contract of the spec (§4.1):
`validate(s) -> bool`.  The flag of `validate_name` does not depend on
the `name_type` argument. -/
def validate (name : String) : Bool :=
  (validate_name name "name").1

/-- Result of the `/api/send` handler, by HTTP shape:
400 bad request, 403 not caught up, or 200 success. -/
inductive SendResult where
  | badRequest (err : String)
  | notCaughtUp (unread_count : Int)
  | ok (message_index : Nat)
deriving DecidableEq

/-- Embedding of `send_message` (src/server.py lines 37-93) as a pure
function from the loaded snapshot and the request fields to the
persisted snapshot and the result.  A missing JSON field and an empty
string both make `not all([channel, agent, text])` true and are
modelled as `""`.  On every rejection path `save_channels` is never
called, so the persisted snapshot is returned unchanged (the in-memory
lazy channel creation of lines 60-61 is discarded unsaved). -/
def send_message (channels : Snapshot) (channel agent text now : String) :
    Snapshot × SendResult :=
  if channel = "" || agent = "" || text = "" then
    (channels, .badRequest "Missing channel, agent, or text")
  else if (validate_name channel "channel name").1 = false then
    (channels, .badRequest ((validate_name channel "channel name").2.getD ""))
  else if (validate_name agent "agent name").1 = false then
    (channels, .badRequest ((validate_name agent "agent name").2.getD ""))
  else
    let cd := (lookupKey channels channel).getD ⟨[], []⟩
    let last_read_index := getLastRead cd.last_read agent
    let total_messages := (cd.messages.length : Int)
    if last_read_index < total_messages - 1 then
      (channels, .notCaughtUp (total_messages - last_read_index - 1))
    else
      let msg : Message := ⟨now, agent, text⟩
      let cd' : ChannelData :=
        ⟨cd.messages ++ [msg], setKey cd.last_read agent (cd.messages.length : Int)⟩
      (setKey channels channel cd', .ok cd.messages.length)

/-- The unread count of the admission check (src/server.py lines 66-70):
`(len(messages) - 1) - last_read.get(agent, -1)`, against the
looked-up channel (or the empty fresh channel when absent). -/
def unreadCount (s : Snapshot) (ch a : String) : Int :=
  let cd := (lookupKey s ch).getD ⟨[], []⟩
  ((cd.messages.length : Int) - 1) - getLastRead cd.last_read a

/-- Result of the `/api/messages` handler, by JSON shape:
400 error, the early return for a just-created channel
(`{"messages": [], "total": 0, "new_messages": 0, "mode": mode}`),
a history-mode body, or a new-mode body. -/
inductive ReadResult where
  | error (err : String)
  | created (mode : String)
  | history (messages : List Message) (total returned : Nat)
  | newMode (messages : List Message) (total new_messages skipped : Nat)
deriving DecidableEq

/-- ASCII whitespace stripped by Python's `int(str)`. -/
def isPySpace (c : Char) : Bool :=
  c == ' ' || c == '\t' || c == '\n' || c == '\r' || c == '\x0b' || c == '\x0c'

/-- ASCII decimal digit. -/
def isPyDigit (c : Char) : Bool :=
  '0' ≤ c && c ≤ '9'

/-- After an initial digit, `int()` accepts digits with single
underscores strictly between digits. -/
def goodTail : List Char → Bool
  | [] => true
  | '_' :: rest =>
    match rest with
    | [] => false
    | d :: _ => isPyDigit d && goodTail rest
  | c :: rest => isPyDigit c && goodTail rest

/-- A valid unsigned digit group for `int()`: non-empty, starts with a
digit, underscores only between digits. -/
def goodDigits : List Char → Bool
  | [] => false
  | c :: rest => isPyDigit c && goodTail rest

/-- Numeric value of a digit group, ignoring underscores. -/
def digitsVal (cs : List Char) : Int :=
  ((cs.filter isPyDigit).foldl (fun n c => 10 * n + (c.toNat - '0'.toNat)) 0 : Nat)

/-- Strip leading and trailing ASCII whitespace. -/
def pyStrip (cs : List Char) : List Char :=
  ((cs.dropWhile isPySpace).reverse.dropWhile isPySpace).reverse

/-- Model of Python `int(s)` on ASCII input (src/server.py line 114):
optional surrounding whitespace, an optional single sign, then a
digit group; `none` models the `ValueError` branch. -/
def pyIntOfString (s : String) : Option Int :=
  match pyStrip s.data with
  | '+' :: rest => if goodDigits rest then some (digitsVal rest) else none
  | '-' :: rest => if goodDigits rest then some (-(digitsVal rest)) else none
  | cs => if goodDigits cs then some (digitsVal cs) else none

/-- `max(20, int(limit))` (src/server.py line 114). -/
def effective_limit (n : Int) : Int :=
  max 20 n

/-- The part of `get_messages` after the limit has been parsed and
floored (src/server.py lines 118-176): name validation, lazy channel
creation with its early return, then the history or new-mode body.
In new mode the cursor is written (and the snapshot saved) only when
the channel has at least one message (lines 164-168). -/
def get_messages_limited (channels : Snapshot) (channel agent mode : String)
    (limit : Int) : Snapshot × ReadResult :=
  if (validate_name channel "channel name").1 = false then
    (channels, .error ((validate_name channel "channel name").2.getD ""))
  else if (validate_name agent "agent name").1 = false then
    (channels, .error ((validate_name agent "agent name").2.getD ""))
  else
    match lookupKey channels channel with
    | none => (setKey channels channel ⟨[], []⟩, .created mode)
    | some cd =>
      if mode = "history" then
        let all_messages := cd.messages
        let limited_messages :=
          if (all_messages.length : Int) > limit then pySliceFrom all_messages (-limit)
          else all_messages
        (channels, .history limited_messages all_messages.length limited_messages.length)
      else
        let last_read_index := getLastRead cd.last_read agent
        let all_new_messages := pySliceFrom cd.messages (last_read_index + 1)
        let p : Int × List Message :=
          if (all_new_messages.length : Int) > limit then
            let skip_count := (all_new_messages.length : Int) - limit
            (last_read_index + skip_count, pySliceFrom all_new_messages skip_count)
          else
            ((cd.messages.length : Int) - 1, all_new_messages)
        let channels' :=
          if 0 < cd.messages.length then
            setKey channels channel ⟨cd.messages, setKey cd.last_read agent p.1⟩
          else channels
        (channels',
          .newMode p.2 cd.messages.length p.2.length
            (if (all_new_messages.length : Int) > limit then
              all_new_messages.length - p.2.length
            else 0))

/-- Embedding of `get_messages` (src/server.py lines 95-176): the
missing-parameter checks, mode check and limit parsing in source
order, then `get_messages_limited` with the floored limit.  A missing
query parameter and an empty string both fail Python's `if not
channel:` and are modelled as `""`. -/
def get_messages (channels : Snapshot) (channel agent mode limitStr : String) :
    Snapshot × ReadResult :=
  if channel = "" then (channels, .error "Missing channel parameter")
  else if agent = "" then (channels, .error "Missing agent parameter")
  else if !(mode = "new" || mode = "history") then
    (channels, .error "Invalid mode. Must be 'new' or 'history'")
  else
    match pyIntOfString limitStr with
    | none => (channels, .error "Invalid limit parameter. Must be an integer.")
    | some n => get_messages_limited channels channel agent mode (effective_limit n)

/-- One external operation against the store (the two mutating
endpoints; history reads are included through `read`'s mode field). -/
inductive Op where
  | send (channel agent text now : String)
  | read (channel agent mode limitStr : String)

/-- The persisted snapshot after one operation. -/
def applyOp (s : Snapshot) : Op → Snapshot
  | .send ch a t now => (send_message s ch a t now).1
  | .read ch a mode lim => (get_messages s ch a mode lim).1

/-- The persisted snapshot after a sequence of operations, starting
from the empty store (no `channels.json` yet). -/
def runOps (ops : List Op) : Snapshot :=
  ops.foldl applyOp []

/-- The per-channel cursor invariant: every stored `last_read` entry is
between `0` and `len(messages) - 1`. -/
def CursorInv (s : Snapshot) : Prop :=
  ∀ ch cd, lookupKey s ch = some cd →
    ∀ a v, lookupKey cd.last_read a = some v →
      0 ≤ v ∧ v ≤ (cd.messages.length : Int) - 1

/-- The on-disk state of `channels.json`: `none` when the file does not
exist, otherwise its textual content. -/
abbrev FileState := Option String

/-- JSON string quoting as used by the snapshot serializer (escaping of
special characters inside the content is not modelled; it never
affects whether the document is empty). -/
def jsonQuote (s : String) : String :=
  "\"" ++ s ++ "\""

/-- Serialization of one message object, modelling its `json.dump`
form. -/
def serializeMessage (m : Message) : String :=
  "\x7b\"time\": " ++ jsonQuote m.time ++ ", \"agent\": " ++ jsonQuote m.agent ++
    ", \"text\": " ++ jsonQuote m.text ++ "\x7d"

/-- Comma-separated concatenation. -/
def commaJoin : List String → String
  | [] => ""
  | [s] => s
  | s :: rest => s ++ ", " ++ commaJoin rest

/-- Serialization of one channel object. -/
def serializeChannel (cd : ChannelData) : String :=
  "\x7b\"messages\": [" ++ commaJoin (cd.messages.map serializeMessage) ++
    "], \"last_read\": \x7b" ++
    commaJoin (cd.last_read.map (fun e => jsonQuote e.1 ++ ": " ++ toString e.2)) ++
    "\x7d\x7d"

/-- Serialization of the whole snapshot, modelling
`json.dump(channels, f, indent=2)` (src/server.py line 26) up to
whitespace: a JSON object document, always starting with a brace. -/
def serializeSnapshot (s : Snapshot) : String :=
  "\x7b" ++ commaJoin (s.map (fun e => jsonQuote e.1 ++ ": " ++ serializeChannel e.2)) ++
    "\x7d"

/-- `open(CHANNELS_FILE, 'w')` (src/server.py line 25): opening for
writing truncates the target file in place immediately. -/
def openTruncate (_f : FileState) : FileState :=
  some ""

/-- `json.dump(channels, f, ...)` (src/server.py line 26): the dump
then fills the file with the serialized snapshot. -/
def jsonDumpWrite (channels : Snapshot) (_f : FileState) : FileState :=
  some (serializeSnapshot channels)

/-- Embedding of a completed `save_channels` (src/server.py lines
23-26): truncate the snapshot file, then write the document. -/
def save_channels (channels : Snapshot) (f : FileState) : FileState :=
  jsonDumpWrite channels (openTruncate f)

/-- The file state when `save_channels` is interrupted after the
truncating open but before the dump completes. -/
def save_channels_interrupted (f : FileState) : FileState :=
  openTruncate f

/-! ### Association-list lemmas -/

theorem lookupKey_setKey_self {β : Type} (l : List (String × β)) (k : String) (v : β) :
    lookupKey (setKey l k v) k = some v := by
  induction l with
  | nil => simp [setKey, lookupKey]
  | cons p rest ih =>
    obtain ⟨k', v'⟩ := p
    by_cases h : k' = k
    · simp [setKey, h, lookupKey]
    · simp [setKey, h, lookupKey, ih]

theorem lookupKey_setKey_ne {β : Type} (l : List (String × β)) (k a : String) (v : β)
    (h : a ≠ k) :
    lookupKey (setKey l k v) a = lookupKey l a := by
  have h' : k ≠ a := fun hh => h hh.symm
  induction l with
  | nil => simp [setKey, lookupKey, h']
  | cons p rest ih =>
    obtain ⟨k', v'⟩ := p
    by_cases hk : k' = k
    · subst hk
      simp [setKey, lookupKey, h']
    · simp only [setKey, if_neg hk, lookupKey]
      by_cases hka : k' = a
      · simp [hka]
      · simp [hka, ih]

theorem getLastRead_setKey_self (lr : List (String × Int)) (a : String) (v : Int) :
    getLastRead (setKey lr a v) a = v := by
  simp [getLastRead, lookupKey_setKey_self]

theorem getLastRead_setKey_ne (lr : List (String × Int)) (a a' : String) (v : Int)
    (h : a' ≠ a) :
    getLastRead (setKey lr a v) a' = getLastRead lr a' := by
  simp [getLastRead, lookupKey_setKey_ne _ _ _ _ h]

theorem cursorOf_setKey_self (s : Snapshot) (ch a : String) (cd : ChannelData) :
    cursorOf (setKey s ch cd) ch a = getLastRead cd.last_read a := by
  simp [cursorOf, lookupKey_setKey_self]

theorem cursorOf_setKey_ne (s : Snapshot) (ch ch' a : String) (cd : ChannelData)
    (h : ch' ≠ ch) :
    cursorOf (setKey s ch cd) ch' a = cursorOf s ch' a := by
  simp [cursorOf, lookupKey_setKey_ne _ _ _ _ h]

/-! ### Validator and slicing lemmas -/

theorem validate_name_fst (n t : String) : (validate_name n t).1 = reMatchNameDollar n := by
  unfold validate_name
  split <;> simp_all

theorem validate_eq (n : String) : validate n = reMatchNameDollar n :=
  validate_name_fst n "name"

theorem validate_ne_empty (n : String) (h : validate n = true) : n ≠ "" := by
  intro he
  subst he
  simp [validate, validate_name, reMatchNameDollar, reMatchChars] at h

theorem pySliceFrom_nonneg {α : Type} (l : List α) (i : Int) (h : 0 ≤ i) :
    pySliceFrom l i = l.drop i.toNat := by
  unfold pySliceFrom
  rw [if_neg (by omega)]

theorem pySliceFrom_neg {α : Type} (l : List α) (m : Int) (h : 0 < m) :
    pySliceFrom l (-m) = l.drop ((l.length : Int) - m).toNat := by
  unfold pySliceFrom
  rw [if_pos (by omega)]
  congr 1

theorem getLastRead_bounds (s : Snapshot) (ch : String) (cd : ChannelData) (a : String)
    (hs : CursorInv s) (hcd : lookupKey s ch = some cd) :
    -1 ≤ getLastRead cd.last_read a ∧
      getLastRead cd.last_read a ≤ (cd.messages.length : Int) - 1 := by
  unfold getLastRead
  cases h : lookupKey cd.last_read a with
  | none =>
    simp only [h, Option.getD_none]
    omega
  | some v =>
    have hb := hs ch cd hcd a v h
    simp only [h, Option.getD_some]
    omega

/-! ### Cursor invariant: preservation by each operation -/

theorem CursorInv_setKey (s : Snapshot) (ch : String) (cd' : ChannelData)
    (hs : CursorInv s)
    (hcd : ∀ a v, lookupKey cd'.last_read a = some v →
      0 ≤ v ∧ v ≤ (cd'.messages.length : Int) - 1) :
    CursorInv (setKey s ch cd') := by
  intro ch'' cd'' hlook a v hv
  by_cases h : ch'' = ch
  · subst h
    rw [lookupKey_setKey_self] at hlook
    injection hlook with h2
    subst h2
    exact hcd a v hv
  · rw [lookupKey_setKey_ne _ _ _ _ h] at hlook
    exact hs _ _ hlook a v hv

theorem CursorInv_emptyChannel (s : Snapshot) (ch : String) (hs : CursorInv s) :
    CursorInv (setKey s ch ⟨[], []⟩) := by
  apply CursorInv_setKey s ch ⟨[], []⟩ hs
  intro a v hv
  simp [lookupKey] at hv

theorem CursorInv_send (s : Snapshot) (ch a t now : String) (hs : CursorInv s) :
    CursorInv (send_message s ch a t now).1 := by
  simp only [send_message]
  split
  · exact hs
  split
  · exact hs
  split
  · exact hs
  split
  · exact hs
  cases hl : lookupKey s ch with
  | none =>
    simp only [hl, Option.getD_none]
    apply CursorInv_setKey s ch _ hs
    intro a' v hv
    by_cases haa : a' = a
    · subst haa
      rw [lookupKey_setKey_self] at hv
      injection hv with h2
      subst h2
      simp [List.length_append]
    · rw [lookupKey_setKey_ne _ _ _ _ haa] at hv
      simp [lookupKey] at hv
  | some cd0 =>
    simp only [hl, Option.getD_some]
    apply CursorInv_setKey s ch _ hs
    intro a' v hv
    by_cases haa : a' = a
    · subst haa
      rw [lookupKey_setKey_self] at hv
      injection hv with h2
      subst h2
      simp [List.length_append]
    · rw [lookupKey_setKey_ne _ _ _ _ haa] at hv
      have hb := hs ch cd0 hl a' v hv
      simp only [List.length_append, List.length_cons, List.length_nil]
      push_cast
      omega

theorem cursor_mono_send (s : Snapshot) (ch a t now ch' a' : String) (hs : CursorInv s) :
    cursorOf s ch' a' ≤ cursorOf (send_message s ch a t now).1 ch' a' := by
  simp only [send_message]
  split
  · exact le_refl _
  split
  · exact le_refl _
  split
  · exact le_refl _
  split
  · exact le_refl _
  by_cases hch : ch' = ch
  · subst hch
    rw [cursorOf_setKey_self]
    by_cases haa : a' = a
    · subst haa
      rw [getLastRead_setKey_self]
      unfold cursorOf
      cases hl : lookupKey s ch' with
      | none =>
        simp only [hl, Option.getD_none]
        decide
      | some cd0 =>
        simp only [hl, Option.getD_some]
        have hb := getLastRead_bounds s ch' cd0 a' hs hl
        omega
    · rw [getLastRead_setKey_ne _ _ _ _ haa]
      unfold cursorOf
      cases hl : lookupKey s ch' with
      | none =>
        simp only [hl, Option.getD_none, getLastRead, lookupKey]
        simp
      | some cd0 =>
        simp only [hl, Option.getD_some]
        exact le_refl _
  · rw [cursorOf_setKey_ne _ _ _ _ _ hch]

theorem length_pySliceFrom (msgs : List Message) (i : Int) (h : 0 ≤ i) :
    (pySliceFrom msgs i).length = msgs.length - i.toNat := by
  rw [pySliceFrom_nonneg _ _ h]
  exact List.length_drop _ _

theorem effective_limit_pos (n : Int) : 0 < effective_limit n := by
  have h := le_max_left (20 : Int) n
  unfold effective_limit
  omega

theorem CursorInv_get_limited (s : Snapshot) (ch a mode : String) (limit : Int)
    (hpos : 0 < limit) (hs : CursorInv s) :
    CursorInv (get_messages_limited s ch a mode limit).1 := by
  simp only [get_messages_limited]
  split
  · exact hs
  split
  · exact hs
  split
  · -- channel absent: lazily created
    exact CursorInv_emptyChannel s ch hs
  rename_i cd hl
  split
  · exact hs
  -- new mode
  split
  · -- 0 < cd.messages.length : the cursor is written
    rename_i hlen
    apply CursorInv_setKey s ch _ hs
    intro a' v hv
    by_cases haa : a' = a
    · subst haa
      rw [lookupKey_setKey_self] at hv
      injection hv with h2
      have hb := getLastRead_bounds s ch cd a' hs hl
      split at h2
      · -- overflow: new cursor is the skip point
        rename_i hov
        have hlen2 := length_pySliceFrom cd.messages (getLastRead cd.last_read a' + 1)
          (by omega)
        subst h2
        constructor <;> simp only [] <;> omega
      · -- no overflow: new cursor is the last index
        subst h2
        simp only []
        omega
    · rw [lookupKey_setKey_ne _ _ _ _ haa] at hv
      exact hs ch cd hl a' v hv
  · exact hs

theorem cursor_mono_get_limited (s : Snapshot) (ch a mode : String) (limit : Int)
    (ch' a' : String) (_hpos : 0 < limit) (hs : CursorInv s) :
    cursorOf s ch' a' ≤ cursorOf (get_messages_limited s ch a mode limit).1 ch' a' := by
  simp only [get_messages_limited]
  split
  · exact le_refl _
  split
  · exact le_refl _
  split
  · -- channel absent: created empty
    rename_i hl
    by_cases hch : ch' = ch
    · subst hch
      rw [cursorOf_setKey_self]
      unfold cursorOf
      simp only [hl, getLastRead, lookupKey]
      simp
    · rw [cursorOf_setKey_ne _ _ _ _ _ hch]
  rename_i cd hl
  split
  · exact le_refl _
  -- new mode
  split
  · rename_i hlen
    by_cases hch : ch' = ch
    · rw [hch, cursorOf_setKey_self]
      by_cases haa : a' = a
      · rw [haa, getLastRead_setKey_self]
        have hb := getLastRead_bounds s ch cd a hs hl
        have hcur : cursorOf s ch a = getLastRead cd.last_read a := by
          unfold cursorOf
          simp [hl]
        rw [hcur]
        split
        · rename_i hov
          simp only []
          omega
        · simp only []
          omega
      · rw [getLastRead_setKey_ne _ _ _ _ haa]
        unfold cursorOf
        simp [hl]
    · rw [cursorOf_setKey_ne _ _ _ _ _ hch]
  · exact le_refl _

theorem CursorInv_get (s : Snapshot) (ch a mode lim : String) (hs : CursorInv s) :
    CursorInv (get_messages s ch a mode lim).1 := by
  simp only [get_messages]
  split
  · exact hs
  split
  · exact hs
  split
  · exact hs
  split
  · exact hs
  rename_i n hn
  exact CursorInv_get_limited s ch a mode (effective_limit n) (effective_limit_pos n) hs

theorem cursor_mono_get (s : Snapshot) (ch a mode lim ch' a' : String) (hs : CursorInv s) :
    cursorOf s ch' a' ≤ cursorOf (get_messages s ch a mode lim).1 ch' a' := by
  simp only [get_messages]
  split
  · exact le_refl _
  split
  · exact le_refl _
  split
  · exact le_refl _
  split
  · exact le_refl _
  rename_i n hn
  exact cursor_mono_get_limited s ch a mode (effective_limit n) ch' a'
    (effective_limit_pos n) hs

theorem CursorInv_applyOp (s : Snapshot) (op : Op) (hs : CursorInv s) :
    CursorInv (applyOp s op) := by
  cases op with
  | send ch a t now => exact CursorInv_send s ch a t now hs
  | read ch a mode lim => exact CursorInv_get s ch a mode lim hs

theorem cursor_mono_applyOp (s : Snapshot) (op : Op) (ch' a' : String) (hs : CursorInv s) :
    cursorOf s ch' a' ≤ cursorOf (applyOp s op) ch' a' := by
  cases op with
  | send ch a t now => exact cursor_mono_send s ch a t now ch' a' hs
  | read ch a mode lim => exact cursor_mono_get s ch a mode lim ch' a' hs

theorem CursorInv_empty : CursorInv ([] : Snapshot) := by
  intro ch cd h
  simp [lookupKey] at h

theorem CursorInv_foldl (s : Snapshot) (ops : List Op) (hs : CursorInv s) :
    CursorInv (ops.foldl applyOp s) := by
  induction ops generalizing s with
  | nil => exact hs
  | cons op rest ih => exact ih (applyOp s op) (CursorInv_applyOp s op hs)

theorem CursorInv_runOps (ops : List Op) : CursorInv (runOps ops) :=
  CursorInv_foldl [] ops CursorInv_empty

theorem cursor_mono_foldl (s : Snapshot) (more : List Op) (ch' a' : String)
    (hs : CursorInv s) :
    cursorOf s ch' a' ≤ cursorOf (more.foldl applyOp s) ch' a' := by
  induction more generalizing s with
  | nil => exact le_refl _
  | cons op rest ih =>
    calc cursorOf s ch' a' ≤ cursorOf (applyOp s op) ch' a' :=
          cursor_mono_applyOp s op ch' a' hs
      _ ≤ cursorOf (rest.foldl applyOp (applyOp s op)) ch' a' :=
          ih (applyOp s op) (CursorInv_applyOp s op hs)

/-! ### Characterization of the handlers on validated requests -/

theorem send_message_valid (s : Snapshot) (ch a text now : String)
    (hch : ch ≠ "") (hag : a ≠ "") (ht : text ≠ "")
    (hvc : reMatchNameDollar ch = true) (hva : reMatchNameDollar a = true) :
    send_message s ch a text now =
      if 0 < unreadCount s ch a then
        (s, .notCaughtUp (unreadCount s ch a))
      else
        (setKey s ch
            ⟨((lookupKey s ch).getD ⟨[], []⟩).messages ++ [⟨now, a, text⟩],
             setKey ((lookupKey s ch).getD ⟨[], []⟩).last_read a
               (((lookupKey s ch).getD ⟨[], []⟩).messages.length : Int)⟩,
         .ok ((lookupKey s ch).getD ⟨[], []⟩).messages.length) := by
  simp only [send_message]
  rw [if_neg (by simp [hch, hag, ht])]
  rw [if_neg (by simp [validate_name_fst, hvc])]
  rw [if_neg (by simp [validate_name_fst, hva])]
  by_cases hcase : 0 < unreadCount s ch a
  · rw [if_pos (by simp only [unreadCount] at hcase; omega), if_pos hcase]
    have he :
        (((((lookupKey s ch).getD ⟨[], []⟩).messages.length : Int)) -
            getLastRead ((lookupKey s ch).getD ⟨[], []⟩).last_read a - 1)
          = unreadCount s ch a := by
      simp only [unreadCount]
      omega
    rw [he]
  · rw [if_neg (by simp only [unreadCount] at hcase; omega), if_neg hcase]

theorem get_messages_valid (s : Snapshot) (ch a mode lim : String) (n : Int)
    (hch : ch ≠ "") (hag : a ≠ "")
    (hmode : mode = "new" ∨ mode = "history")
    (hn : pyIntOfString lim = some n) :
    get_messages s ch a mode lim
      = get_messages_limited s ch a mode (effective_limit n) := by
  simp only [get_messages]
  rw [if_neg hch, if_neg hag]
  rw [if_neg (by rcases hmode with h | h <;> simp [h])]
  rw [hn]

theorem get_limited_new_overflow (s : Snapshot) (ch a : String) (limit : Int)
    (cd : ChannelData)
    (hvc : reMatchNameDollar ch = true) (hva : reMatchNameDollar a = true)
    (hcd : lookupKey s ch = some cd)
    (hlb : -1 ≤ getLastRead cd.last_read a)
    (hub : getLastRead cd.last_read a ≤ (cd.messages.length : Int) - 1)
    (hpos : 0 < limit)
    (hover : limit < (cd.messages.length : Int) - 1 - getLastRead cd.last_read a) :
    ∃ msgs : List Message,
      get_messages_limited s ch a "new" limit
        = (setKey s ch ⟨cd.messages,
             setKey cd.last_read a ((cd.messages.length : Int) - 1 - limit)⟩,
           .newMode msgs cd.messages.length msgs.length
             (((cd.messages.length : Int) - 1 - getLastRead cd.last_read a)
               - limit).toNat)
      ∧ msgs = cd.messages.drop ((cd.messages.length : Int) - limit).toNat
      ∧ (msgs.length : Int) = limit := by
  have hlen := length_pySliceFrom cd.messages (getLastRead cd.last_read a + 1) (by omega)
  have hovB : ((pySliceFrom cd.messages (getLastRead cd.last_read a + 1)).length : Int)
      > limit := by omega
  refine ⟨pySliceFrom (pySliceFrom cd.messages (getLastRead cd.last_read a + 1))
    (((pySliceFrom cd.messages (getLastRead cd.last_read a + 1)).length : Int) - limit),
    ?_, ?_, ?_⟩
  · simp only [get_messages_limited]
    rw [if_neg (by simp [validate_name_fst, hvc])]
    rw [if_neg (by simp [validate_name_fst, hva])]
    simp only [hcd]
    rw [if_neg (by decide)]
    rw [if_pos hovB]
    rw [if_pos (by omega)]
    rw [if_pos hovB]
    have hv : getLastRead cd.last_read a +
        (((pySliceFrom cd.messages (getLastRead cd.last_read a + 1)).length : Int) - limit)
          = (cd.messages.length : Int) - 1 - limit := by omega
    rw [hv]
    have hlen2 := length_pySliceFrom (pySliceFrom cd.messages (getLastRead cd.last_read a + 1))
      (((pySliceFrom cd.messages (getLastRead cd.last_read a + 1)).length : Int) - limit)
      (by omega)
    have hsk : (pySliceFrom cd.messages (getLastRead cd.last_read a + 1)).length -
        (pySliceFrom (pySliceFrom cd.messages (getLastRead cd.last_read a + 1))
          (((pySliceFrom cd.messages (getLastRead cd.last_read a + 1)).length : Int)
            - limit)).length
          = (((cd.messages.length : Int) - 1 - getLastRead cd.last_read a)
              - limit).toNat := by omega
    rw [hsk]
  · rw [pySliceFrom_nonneg _ _ (by omega)]
    rw [pySliceFrom_nonneg _ _ (by omega)]
    rw [List.drop_drop]
    congr 1
    simp only [List.length_drop]
    omega
  · rw [length_pySliceFrom (pySliceFrom cd.messages (getLastRead cd.last_read a + 1))
      (((pySliceFrom cd.messages (getLastRead cd.last_read a + 1)).length : Int) - limit)
      (by omega)]
    omega

/-! ### Claim theorems -/

/-- C7 (code bug): `validate` is claimed to reject every string containing
whitespace, but the Python `$` anchor of `re.match(r'^[a-z0-9_]+$', name)`
also matches just before a trailing newline, so `"agent_1\n"` — which
contains the whitespace character `'\n'`, a character outside
`[a-z0-9_]` — is accepted, contradicting the function's own docstring
("only lowercase letters, numbers, underscores").  On newline-free
strings the claimed contract does hold, as the last two conjuncts
illustrate. -/
theorem validate_trailing_newline_bug :
    validate "agent_1\n" = true
    ∧ ('\n' ∈ "agent_1\n".data ∧ isNameChar '\n' = false)
    ∧ validate "agent_1" = true
    ∧ validate "" = false ∧ validate "Agent" = false ∧ validate "a-b" = false
    ∧ validate "a.b" = false ∧ validate "a b" = false := by
  decide

/-- C2: with a valid channel, valid agent and non-empty text, a send is
rejected as not-caught-up, carrying
`unread = (len(messages) - 1) - last_read.get(agent, -1)`, exactly when
that count is positive; a rejected send leaves the persisted snapshot
unchanged; and when the count is `0` (including a fresh channel) the
send is admitted. -/
theorem send_admission_iff (s : Snapshot) (ch a text now : String)
    (hc : validate ch = true) (ha : validate a = true) (ht : text ≠ "") :
    ((send_message s ch a text now).2 = .notCaughtUp (unreadCount s ch a)
        ↔ 0 < unreadCount s ch a)
    ∧ (0 < unreadCount s ch a → (send_message s ch a text now).1 = s)
    ∧ (unreadCount s ch a = 0 →
        (send_message s ch a text now).2
          = .ok ((lookupKey s ch).getD ⟨[], []⟩).messages.length) := by
  have hvc : reMatchNameDollar ch = true := by rw [← validate_eq]; exact hc
  have hva : reMatchNameDollar a = true := by rw [← validate_eq]; exact ha
  rw [send_message_valid s ch a text now (validate_ne_empty ch hc)
    (validate_ne_empty a ha) ht hvc hva]
  by_cases hcase : 0 < unreadCount s ch a
  · rw [if_pos hcase]
    exact ⟨⟨fun _ => hcase, fun _ => rfl⟩, fun _ => rfl, fun h0 => absurd hcase (by omega)⟩
  · rw [if_neg hcase]
    refine ⟨⟨fun h => ?_, fun h => absurd h hcase⟩, fun h => absurd h hcase, fun _ => rfl⟩
    exact absurd h (by simp)

/-- C2 witness: on a channel holding one message that agent `b` has not
read, `b`'s send is rejected with `unread_count = 1` and the snapshot is
unchanged. -/
theorem send_admission_iff_witness :
    (send_message [("c", ⟨[⟨"t0", "b", "hello"⟩], []⟩)] "c" "b" "x" "t").2
        = SendResult.notCaughtUp 1
    ∧ (send_message [("c", ⟨[⟨"t0", "b", "hello"⟩], []⟩)] "c" "b" "x" "t").1
        = [("c", ⟨[⟨"t0", "b", "hello"⟩], []⟩)] := by
  have h := send_admission_iff [("c", ⟨[⟨"t0", "b", "hello"⟩], []⟩)] "c" "b" "x" "t"
    (by decide) (by decide) (by decide)
  exact ⟨h.1.mpr (by decide), h.2.1 (by decide)⟩

/-- C3: a successful send appends exactly one message, carrying the given
agent, text and current timestamp, at index equal to the pre-append
length; it sets the sender's cursor to that index, returns that index,
and changes no other channel and no other cursor. -/
theorem send_success_effects (s : Snapshot) (ch a text now : String) (i : Nat)
    (h : (send_message s ch a text now).2 = .ok i) :
    i = ((lookupKey s ch).getD ⟨[], []⟩).messages.length
    ∧ (send_message s ch a text now).1
        = setKey s ch
            ⟨((lookupKey s ch).getD ⟨[], []⟩).messages ++ [⟨now, a, text⟩],
             setKey ((lookupKey s ch).getD ⟨[], []⟩).last_read a (i : Int)⟩
    ∧ cursorOf (send_message s ch a text now).1 ch a = (i : Int)
    ∧ (∀ ch', ch' ≠ ch →
        lookupKey (send_message s ch a text now).1 ch' = lookupKey s ch')
    ∧ (∀ ch' a', ch' ≠ ch ∨ a' ≠ a →
        cursorOf (send_message s ch a text now).1 ch' a' = cursorOf s ch' a') := by
  simp only [send_message] at h ⊢
  split at h
  · exact absurd h (by simp)
  split at h
  · exact absurd h (by simp)
  split at h
  · exact absurd h (by simp)
  split at h
  · exact absurd h (by simp)
  rename_i hc1 hc2 hc3 hc4
  rw [if_neg hc1, if_neg hc2, if_neg hc3, if_neg hc4]
  injection h with hi
  subst hi
  refine ⟨rfl, rfl, ?_, ?_, ?_⟩
  · rw [cursorOf_setKey_self, getLastRead_setKey_self]
  · intro ch' hne
    exact lookupKey_setKey_ne _ _ _ _ hne
  · intro ch' a' hne
    by_cases hch : ch' = ch
    · rcases hne with hne | hne
      · exact absurd hch hne
      · rw [hch, cursorOf_setKey_self, getLastRead_setKey_ne _ _ _ _ hne]
        unfold cursorOf
        cases hl : lookupKey s ch with
        | none => simp [hl, getLastRead, lookupKey]
        | some cd0 => simp [hl]
    · rw [cursorOf_setKey_ne _ _ _ _ _ hch]

/-- C3 witness: the first send into an empty store appends at index 0,
sets the sender's cursor to 0, and produces exactly the one-message
channel. -/
theorem send_success_effects_witness :
    cursorOf (send_message [] "c" "b" "hi" "t").1 "c" "b" = 0
    ∧ (send_message [] "c" "b" "hi" "t").1
        = setKey [] "c" ⟨[] ++ [⟨"t", "b", "hi"⟩], setKey [] "b" 0⟩ := by
  have h := send_success_effects [] "c" "b" "hi" "t" 0 (by decide)
  exact ⟨h.2.2.1, h.2.1⟩

/-- C4: in every state reachable from the empty store by any sequence of
send and read operations, every stored cursor satisfies
`last_read[a] ≤ len(messages) - 1`, and appending any further
operations never decreases any agent's cursor in any channel. -/
theorem cursor_invariant_monotone (ops : List Op) (ch : String) :
    (∀ cd, lookupKey (runOps ops) ch = some cd →
        ∀ a v, lookupKey cd.last_read a = some v →
          v ≤ (cd.messages.length : Int) - 1)
    ∧ (∀ a more, cursorOf (runOps ops) ch a ≤ cursorOf (runOps (ops ++ more)) ch a) := by
  constructor
  · intro cd hcd a v hv
    exact (CursorInv_runOps ops ch cd hcd a v hv).2
  · intro a more
    have he : runOps (ops ++ more) = more.foldl applyOp (runOps ops) := by
      simp [runOps, List.foldl_append]
    rw [he]
    exact cursor_mono_foldl (runOps ops) more ch a (CursorInv_runOps ops)

/-- C4 witness: after one send the sender's stored cursor 0 is within
bounds, and a subsequent read does not decrease it. -/
theorem cursor_invariant_monotone_witness :
    ((0 : Int) ≤ (([⟨"t", "b", "hi"⟩] : List Message).length : Int) - 1)
    ∧ cursorOf (runOps [Op.send "c" "b" "hi" "t"]) "c" "b"
        ≤ cursorOf (runOps ([Op.send "c" "b" "hi" "t"]
            ++ [Op.read "c" "b" "new" "20"])) "c" "b" := by
  refine ⟨?_, (cursor_invariant_monotone [Op.send "c" "b" "hi" "t"] "c").2 "b"
    [Op.read "c" "b" "new" "20"]⟩
  have h := (cursor_invariant_monotone [Op.send "c" "b" "hi" "t"] "c").1
    ⟨[⟨"t", "b", "hi"⟩], [("b", 0)]⟩ (by decide) "b" 0 (by decide)
  simpa using h

/-- C5: an agent that has just sent successfully receives zero messages
from an immediately following new-mode read on the same channel: the
read reports `new_messages = 0`, `skipped = 0`, and the total is the
send's returned index plus one. -/
theorem send_then_read_new_empty (s : Snapshot) (ch a text now limitStr : String)
    (n : Int) (i : Nat)
    (hn : pyIntOfString limitStr = some n)
    (hc : validate ch = true) (ha : validate a = true) (ht : text ≠ "")
    (hok : (send_message s ch a text now).2 = .ok i) :
    (get_messages (send_message s ch a text now).1 ch a "new" limitStr).2
      = .newMode [] (i + 1) 0 0 := by
  have hvc : reMatchNameDollar ch = true := by rw [← validate_eq]; exact hc
  have hva : reMatchNameDollar a = true := by rw [← validate_eq]; exact ha
  have hch := validate_ne_empty ch hc
  have hag := validate_ne_empty a ha
  rw [send_message_valid s ch a text now hch hag ht hvc hva] at hok ⊢
  by_cases hcase : 0 < unreadCount s ch a
  · rw [if_pos hcase] at hok
    exact absurd hok (by simp)
  · rw [if_neg hcase] at hok ⊢
    injection hok with hi
    rw [get_messages_valid _ ch a "new" limitStr n hch hag (Or.inl rfl) hn]
    simp only [get_messages_limited]
    rw [if_neg (by simp [validate_name_fst, hvc])]
    rw [if_neg (by simp [validate_name_fst, hva])]
    simp only [lookupKey_setKey_self]
    rw [if_neg (by decide)]
    rw [getLastRead_setKey_self]
    have hallNew :
        pySliceFrom (((lookupKey s ch).getD ⟨[], []⟩).messages ++ [⟨now, a, text⟩])
          ((((lookupKey s ch).getD ⟨[], []⟩).messages.length : Int) + 1) = [] := by
      rw [pySliceFrom_nonneg _ _ (by omega)]
      apply List.drop_eq_nil_of_le
      simp [List.length_append]
    rw [hallNew]
    have hlim := effective_limit_pos n
    have hnogt : ¬ ((([] : List Message).length : Int) > effective_limit n) := by
      simp only [List.length_nil, Nat.cast_zero]
      omega
    rw [if_neg hnogt]
    rw [if_neg hnogt]
    simp [List.length_append, ← hi]

/-- C5 witness: after the very first send into an empty store, the
sender's immediate new-mode read returns no messages. -/
theorem send_then_read_new_empty_witness :
    (get_messages (send_message [] "c" "b" "hi" "t").1 "c" "b" "new" "20").2
      = ReadResult.newMode [] 1 0 0 :=
  send_then_read_new_empty [] "c" "b" "hi" "t" "20" 20 0 rfl (by decide) (by decide)
    (by decide) (by decide)

/-- C6 (amended): a history-mode read on an existing channel returns the
most recent `limit` messages of the full sequence (all of them when the
channel holds fewer), independently of the caller's cursor, mutates
nothing, and is idempotent; on an absent channel it creates and
persists the empty channel (the one persisted-state mutation) and
returns the early empty result. -/
theorem read_history_frame_spec (s : Snapshot) (ch a limitStr : String) (n : Int)
    (hn : pyIntOfString limitStr = some n)
    (hc : validate ch = true) (ha : validate a = true) :
    (∀ cd, lookupKey s ch = some cd →
      get_messages s ch a "history" limitStr
        = (s, .history
            (cd.messages.drop (cd.messages.length - (effective_limit n).toNat))
            cd.messages.length
            (min cd.messages.length (effective_limit n).toNat))
      ∧ get_messages (get_messages s ch a "history" limitStr).1 ch a "history" limitStr
          = get_messages s ch a "history" limitStr)
    ∧ (lookupKey s ch = none →
        get_messages s ch a "history" limitStr
          = (setKey s ch ⟨[], []⟩, .created "history")) := by
  have hvc : reMatchNameDollar ch = true := by rw [← validate_eq]; exact hc
  have hva : reMatchNameDollar a = true := by rw [← validate_eq]; exact ha
  have hch := validate_ne_empty ch hc
  have hag := validate_ne_empty a ha
  have hlim := effective_limit_pos n
  constructor
  · intro cd hcd
    have hmain : get_messages s ch a "history" limitStr
        = (s, .history
            (cd.messages.drop (cd.messages.length - (effective_limit n).toNat))
            cd.messages.length
            (min cd.messages.length (effective_limit n).toNat)) := by
      rw [get_messages_valid s ch a "history" limitStr n hch hag (Or.inr rfl) hn]
      simp only [get_messages_limited]
      rw [if_neg (by simp [validate_name_fst, hvc])]
      rw [if_neg (by simp [validate_name_fst, hva])]
      simp only [hcd]
      rw [if_pos trivial]
      by_cases hgt : (cd.messages.length : Int) > effective_limit n
      · rw [if_pos hgt, pySliceFrom_neg _ _ hlim]
        have hidx : ((cd.messages.length : Int) - effective_limit n).toNat
            = cd.messages.length - (effective_limit n).toNat := by omega
        rw [hidx]
        have hret : (cd.messages.drop
              (cd.messages.length - (effective_limit n).toNat)).length
            = min cd.messages.length (effective_limit n).toNat := by
          simp only [List.length_drop]
          omega
        rw [hret]
      · rw [if_neg hgt]
        have h0 : cd.messages.length - (effective_limit n).toNat = 0 := by omega
        rw [h0, List.drop_zero]
        have hmin : min cd.messages.length (effective_limit n).toNat
            = cd.messages.length := by omega
        rw [hmin]
    exact ⟨hmain, by rw [hmain]; exact hmain⟩
  · intro hnone
    rw [get_messages_valid s ch a "history" limitStr n hch hag (Or.inr rfl) hn]
    simp only [get_messages_limited]
    rw [if_neg (by simp [validate_name_fst, hvc])]
    rw [if_neg (by simp [validate_name_fst, hva])]
    simp only [hnone]

/-- C6 counterexample: the claim says a history-mode read mutates no
persisted state in every state, but on a snapshot without the channel
the read creates and persists the empty channel. -/
theorem read_history_mutates_counterexample :
    (get_messages [] "c" "b" "history" "20").1 = [("c", ⟨[], []⟩)]
    ∧ (get_messages [] "c" "b" "history" "20").1 ≠ ([] : Snapshot) := by
  decide

/-- C6 witness: a history read of a one-message channel returns that
message, reports total 1 and returned 1, and leaves the snapshot
untouched. -/
theorem read_history_frame_spec_witness :
    get_messages [("c", ⟨[⟨"t", "b", "m"⟩], [("b", 0)]⟩)] "c" "b" "history" "20"
      = ([("c", ⟨[⟨"t", "b", "m"⟩], [("b", 0)]⟩)],
         ReadResult.history [⟨"t", "b", "m"⟩] 1 1) := by
  have h := (read_history_frame_spec [("c", ⟨[⟨"t", "b", "m"⟩], [("b", 0)]⟩)]
    "c" "b" "20" 20 rfl (by decide) (by decide)).1
    ⟨[⟨"t", "b", "m"⟩], [("b", 0)]⟩ (by decide)
  revert h
  decide

/-- C1 (amended): when the unread count
`u = len(messages) - 1 - last_read.get(agent, -1)` exceeds the
effective limit, a new-mode read returns exactly the `limit` most
recent unread messages, reports `skipped = u - limit` and
`new_messages = limit`, and advances the agent's cursor by exactly
`skipped` — to `len(messages) - 1 - limit`, not past the returned
messages.  (The original claim's "cursor advances by skipped plus the
returned count, to `len(messages) - 1`" is refuted by
`read_new_overflow_cursor_counterexample`.) -/
theorem read_new_overflow_spec (s : Snapshot) (ch a limitStr : String) (n : Int)
    (cd : ChannelData)
    (hn : pyIntOfString limitStr = some n)
    (hc : validate ch = true) (ha : validate a = true)
    (hcd : lookupKey s ch = some cd)
    (hlb : -1 ≤ getLastRead cd.last_read a)
    (hub : getLastRead cd.last_read a ≤ (cd.messages.length : Int) - 1)
    (hover : effective_limit n
      < (cd.messages.length : Int) - 1 - getLastRead cd.last_read a) :
    ∃ msgs : List Message,
      (get_messages s ch a "new" limitStr).2
        = .newMode msgs cd.messages.length msgs.length
            (((cd.messages.length : Int) - 1 - getLastRead cd.last_read a)
              - effective_limit n).toNat
      ∧ msgs = cd.messages.drop ((cd.messages.length : Int) - effective_limit n).toNat
      ∧ (msgs.length : Int) = effective_limit n
      ∧ cursorOf (get_messages s ch a "new" limitStr).1 ch a
          = getLastRead cd.last_read a
            + (((cd.messages.length : Int) - 1 - getLastRead cd.last_read a)
                - effective_limit n) := by
  have hvc : reMatchNameDollar ch = true := by rw [← validate_eq]; exact hc
  have hva : reMatchNameDollar a = true := by rw [← validate_eq]; exact ha
  have hch := validate_ne_empty ch hc
  have hag := validate_ne_empty a ha
  obtain ⟨msgs, he, hm, hlen⟩ := get_limited_new_overflow s ch a (effective_limit n) cd
    hvc hva hcd hlb hub (effective_limit_pos n) hover
  have hg : get_messages s ch a "new" limitStr
      = get_messages_limited s ch a "new" (effective_limit n) :=
    get_messages_valid s ch a "new" limitStr n hch hag (Or.inl rfl) hn
  refine ⟨msgs, ?_, hm, hlen, ?_⟩
  · rw [hg, he]
  · rw [hg, he]
    simp only []
    rw [cursorOf_setKey_self, getLastRead_setKey_self]
    omega

/-- C1 counterexample: a channel with 25 messages, an unread agent and
limit 20 satisfies the claim's overflow premise, yet the cursor after
the read is 4 (the skip point), not `len(messages) - 1 = 24` as the
claim states. -/
theorem read_new_overflow_cursor_counterexample :
    effective_limit 20
      < (((lookupKey ([("c", ⟨List.replicate 25 ⟨"t", "x", "m"⟩, []⟩)] : Snapshot)
            "c").getD ⟨[], []⟩).messages.length : Int) - 1
        - cursorOf [("c", ⟨List.replicate 25 ⟨"t", "x", "m"⟩, []⟩)] "c" "b"
    ∧ cursorOf (get_messages [("c", ⟨List.replicate 25 ⟨"t", "x", "m"⟩, []⟩)]
        "c" "b" "new" "20").1 "c" "b" = 4
    ∧ cursorOf (get_messages [("c", ⟨List.replicate 25 ⟨"t", "x", "m"⟩, []⟩)]
        "c" "b" "new" "20").1 "c" "b" ≠ (25 : Int) - 1 := by
  decide

/-- C1 witness: on the same 25-message channel with limit 20, the read
returns the 20 most recent unread messages with `skipped = 5`, and the
cursor advances from -1 by exactly 5. -/
theorem read_new_overflow_spec_witness :
    (get_messages [("c", ⟨List.replicate 25 ⟨"t", "x", "m"⟩, []⟩)]
        "c" "b" "new" "20").2
      = ReadResult.newMode (List.replicate 20 ⟨"t", "x", "m"⟩) 25 20 5
    ∧ cursorOf (get_messages [("c", ⟨List.replicate 25 ⟨"t", "x", "m"⟩, []⟩)]
        "c" "b" "new" "20").1 "c" "b" = 4 := by
  obtain ⟨msgs, h1, hm, -, hcur⟩ := read_new_overflow_spec
    [("c", ⟨List.replicate 25 ⟨"t", "x", "m"⟩, []⟩)] "c" "b" "20" 20
    ⟨List.replicate 25 ⟨"t", "x", "m"⟩, []⟩ rfl (by decide) (by decide) (by decide)
    (by decide) (by decide) (by decide)
  subst hm
  constructor
  · revert h1
    decide
  · revert hcur
    decide

/-- C8: a limit parameter parsing to an integer below 20 is floored to an
effective limit of exactly 20, one parsing to 20 or above is used as
given, and one that does not parse as an integer is rejected with a
validation error before any state is touched. -/
theorem limit_handling_spec (s : Snapshot) (ch a mode limitStr : String)
    (hch : ch ≠ "") (hag : a ≠ "") (hmode : mode = "new" ∨ mode = "history") :
    (pyIntOfString limitStr = none →
      get_messages s ch a mode limitStr
        = (s, .error "Invalid limit parameter. Must be an integer."))
    ∧ (∀ n : Int, pyIntOfString limitStr = some n →
        get_messages s ch a mode limitStr
          = get_messages_limited s ch a mode (effective_limit n)
        ∧ (n < 20 → effective_limit n = 20)
        ∧ (20 ≤ n → effective_limit n = n)) := by
  constructor
  · intro hnone
    simp only [get_messages]
    rw [if_neg hch, if_neg hag, if_neg (by rcases hmode with h | h <;> simp [h]), hnone]
  · intro n hn
    refine ⟨get_messages_valid s ch a mode limitStr n hch hag hmode hn, ?_, ?_⟩
    · intro h
      exact max_eq_left (by omega)
    · intro h
      exact max_eq_right h

/-- C8 witness: the limit string "5" parses to 5 and is floored to 20;
the limit string "17x" does not parse and yields the validation error
with the snapshot unchanged. -/
theorem limit_handling_spec_witness :
    (get_messages [] "c" "b" "new" "5"
        = get_messages_limited [] "c" "b" "new" (effective_limit 5)
      ∧ effective_limit 5 = 20)
    ∧ get_messages [] "c" "b" "new" "17x"
        = ([], ReadResult.error "Invalid limit parameter. Must be an integer.") := by
  have h1 := (limit_handling_spec [] "c" "b" "new" "5"
    (by decide) (by decide) (Or.inl rfl)).2 5 rfl
  have h2 := (limit_handling_spec [] "c" "b" "new" "17x"
    (by decide) (by decide) (Or.inl rfl)).1 (by decide)
  exact ⟨⟨h1.1, h1.2.1 (by decide)⟩, h2⟩

/-- C9 (code bug): the claim says `save_channels` writes to a temporary
location and atomically replaces the previous snapshot.  The source
instead opens `channels.json` itself with mode `'w'`, which truncates
it in place before `json.dump` runs: a save interrupted between the
open and the dump leaves the file holding `""`, which is not the
serialization of any snapshot — a corrupt state that the next
`json.load` cannot read — and the previous snapshot's bytes are
already gone.  A completed save does end with the serialized
snapshot in place, as the last conjunct records. -/
theorem save_channels_not_atomic :
    save_channels_interrupted
        (some (serializeSnapshot [("c", ⟨[⟨"t", "b", "hi"⟩], [("b", 0)]⟩)]))
      = some ""
    ∧ (∀ snap : Snapshot, serializeSnapshot snap ≠ "")
    ∧ (∀ snap : Snapshot, ∀ f : FileState,
        save_channels snap f = some (serializeSnapshot snap)) := by
  refine ⟨rfl, ?_, fun snap f => rfl⟩
  intro snap h
  have hl := congrArg String.length h
  simp only [serializeSnapshot, String.length_append] at hl
  have h1 : ("\x7b" : String).length = 1 := rfl
  have h2 : ("\x7d" : String).length = 1 := rfl
  have h3 : ("" : String).length = 0 := rfl
  omega

/-- C10: whenever a new-mode read skips messages, the cursor afterwards
equals its previous value plus the skipped count only, so the returned
messages still lie beyond the cursor: an immediately following send by
the same agent is rejected as not caught up with `unread_count` equal
to the number of messages the read just returned. -/
theorem read_new_skip_then_send_rejected (s : Snapshot)
    (ch a text now limitStr : String) (n : Int) (cd : ChannelData)
    (hn : pyIntOfString limitStr = some n)
    (hc : validate ch = true) (ha : validate a = true) (ht : text ≠ "")
    (hcd : lookupKey s ch = some cd)
    (hlb : -1 ≤ getLastRead cd.last_read a)
    (hub : getLastRead cd.last_read a ≤ (cd.messages.length : Int) - 1)
    (hover : effective_limit n
      < (cd.messages.length : Int) - 1 - getLastRead cd.last_read a) :
    ∃ msgs : List Message, ∃ skipped : Nat,
      (get_messages s ch a "new" limitStr).2
        = .newMode msgs cd.messages.length msgs.length skipped
      ∧ 0 < skipped
      ∧ cursorOf (get_messages s ch a "new" limitStr).1 ch a
          = getLastRead cd.last_read a + (skipped : Int)
      ∧ send_message (get_messages s ch a "new" limitStr).1 ch a text now
          = ((get_messages s ch a "new" limitStr).1,
             .notCaughtUp (msgs.length : Int)) := by
  have hvc : reMatchNameDollar ch = true := by rw [← validate_eq]; exact hc
  have hva : reMatchNameDollar a = true := by rw [← validate_eq]; exact ha
  have hch := validate_ne_empty ch hc
  have hag := validate_ne_empty a ha
  obtain ⟨msgs, he, hm, hlen⟩ := get_limited_new_overflow s ch a (effective_limit n) cd
    hvc hva hcd hlb hub (effective_limit_pos n) hover
  have hg : get_messages s ch a "new" limitStr
      = get_messages_limited s ch a "new" (effective_limit n) :=
    get_messages_valid s ch a "new" limitStr n hch hag (Or.inl rfl) hn
  rw [hg, he]
  refine ⟨msgs,
    (((cd.messages.length : Int) - 1 - getLastRead cd.last_read a)
      - effective_limit n).toNat, rfl, by omega, ?_, ?_⟩
  · simp only []
    rw [cursorOf_setKey_self, getLastRead_setKey_self]
    omega
  · simp only []
    rw [send_message_valid _ ch a text now hch hag ht hvc hva]
    have hu : unreadCount
        (setKey s ch ⟨cd.messages,
           setKey cd.last_read a ((cd.messages.length : Int) - 1 - effective_limit n)⟩)
        ch a = effective_limit n := by
      simp only [unreadCount, lookupKey_setKey_self, Option.getD_some,
        getLastRead_setKey_self]
      omega
    have hpos := effective_limit_pos n
    rw [if_pos (by omega), hu, hlen]

/-- C10 witness: on a 25-message channel with limit 20, the overflow
read leaves the cursor at -1 + 5 and the immediately following send by
the same agent is rejected with `unread_count = 20`, the number of
messages the read returned. -/
theorem read_new_skip_then_send_rejected_witness :
    cursorOf (get_messages [("c", ⟨List.replicate 25 ⟨"t", "x", "m"⟩, []⟩)]
        "c" "b" "new" "20").1 "c" "b" = -1 + 5
    ∧ send_message (get_messages [("c", ⟨List.replicate 25 ⟨"t", "x", "m"⟩, []⟩)]
          "c" "b" "new" "20").1 "c" "b" "ping" "t9"
        = ((get_messages [("c", ⟨List.replicate 25 ⟨"t", "x", "m"⟩, []⟩)]
            "c" "b" "new" "20").1, SendResult.notCaughtUp 20) := by
  obtain ⟨msgs, skipped, h1, h2, h3, h4⟩ := read_new_skip_then_send_rejected
    [("c", ⟨List.replicate 25 ⟨"t", "x", "m"⟩, []⟩)] "c" "b" "ping" "t9" "20" 20
    ⟨List.replicate 25 ⟨"t", "x", "m"⟩, []⟩ rfl (by decide) (by decide) (by decide)
    (by decide) (by decide) (by decide) (by decide)
  have hv : (get_messages [("c", ⟨List.replicate 25 ⟨"t", "x", "m"⟩, []⟩)]
      "c" "b" "new" "20").2
      = ReadResult.newMode (List.replicate 20 ⟨"t", "x", "m"⟩) 25 20 5 := by decide
  rw [h1] at hv
  injection hv with e1 e2 e3 e4
  subst e1
  subst e4
  constructor
  · rw [h3]
    decide
  · rw [h4]
    decide
